import Mathlib

/-!
Verification of the run-queue latency sampler described by the repository
specification.  The only source file present, `src/bpf/ethrex.bpf.c`, declares
two tunables (`min_us`, `targ_pid`), the bounded `start` hash map
(u32 task id → u64 timestamp, 10240 entries) and the `events` perf output
channel.  The sampler's event handlers themselves are not part of the source
fragment, so they are modelled from the specification (section 4.1), while the
constants below are taken directly from the C declarations.
-/

namespace Ethrex

/-- Modulus of the unsigned 64-bit timestamps stored in the `start` map
(`__type(value, u64)` in `src/bpf/ethrex.bpf.c`). -/
def U64 : Nat := 2 ^ 64

/-- Capacity of the `start` map, from `__uint(max_entries, 10240)` in
`src/bpf/ethrex.bpf.c`. -/
def PENDING_CAPACITY : Nat := 10240

/-- Initial value of the threshold tunable, from
`const volatile __u64 min_us = 0;` in `src/bpf/ethrex.bpf.c`. -/
def min_us : Nat := 0

/-- Initial value of the pid-filter tunable, from
`const volatile pid_t targ_pid = 0;` in `src/bpf/ethrex.bpf.c`. -/
def targ_pid : Nat := 0

/-- Unsigned 64-bit subtraction `a - b` with wraparound, as performed on the
u64 timestamps of the `start` map. -/
def u64sub (a b : Nat) : Nat :=
  (a % U64 + (U64 - b % U64)) % U64

/-- Modelled from the spec: the `Config` record of section 3, the two
read-only tunables (`min_us` / `targ_pid` in the C fragment). -/
structure Config where
  min_latency_threshold : Nat
  target_pid : Nat
  deriving DecidableEq

/-- Modelled from the spec: the `LatencySample` record of section 3 —
task identifier, process identifier, command name and computed wait
latency. -/
structure LatencySample where
  taskId : Nat
  processId : Nat
  command : String
  latency : Nat
  deriving DecidableEq

/-- Modelled from the spec: the sampler's mutable state — the `PendingStart`
table (the `start` map of the C fragment, an association list keyed by task
id), the output channel contents (the `events` perf array), the drop counter
for failed channel writes, and the read-only configuration. -/
structure SamplerState where
  config : Config
  pending : List (Nat × Nat)
  channel : List LatencySample
  dropCount : Nat
  deriving DecidableEq

/-- Lookup of a task id in the `PendingStart` association list. -/
def pendingLookup : List (Nat × Nat) → Nat → Option Nat
  | [], _ => none
  | (k, v) :: rest, tid => if k = tid then some v else pendingLookup rest tid

/-- Removal of a task id from the `PendingStart` association list. -/
def pendingRemove (l : List (Nat × Nat)) (tid : Nat) : List (Nat × Nat) :=
  l.filter (fun p => p.1 != tid)

/-- Overwrite of the value stored under an existing task id. -/
def pendingUpdate : List (Nat × Nat) → Nat → Nat → List (Nat × Nat)
  | [], _, _ => []
  | (k, v) :: rest, tid, ts =>
      if k = tid then (k, ts) :: rest else (k, v) :: pendingUpdate rest tid ts

/-- Modelled from the spec: Operation A `onRunnable(taskId, timestamp)` of
section 4.1 (absent from the C fragment, which only declares the `start`
map).  Inserts/overwrites `PendingStart[taskId] = timestamp`; an insertion
into a full table is dropped silently. -/
def onRunnable (s : SamplerState) (tid ts : Nat) : SamplerState :=
  if (pendingLookup s.pending tid).isSome then
    { s with pending := pendingUpdate s.pending tid (ts % U64) }
  else if s.pending.length < PENDING_CAPACITY then
    { s with pending := (tid, ts % U64) :: s.pending }
  else s

/-- The pid filter of Operation B: discard when
`target_pid != 0 && processId != target_pid`. -/
def pidFiltered (cfg : Config) (pid : Nat) : Bool :=
  cfg.target_pid != 0 && pid != cfg.target_pid

/-- Modelled from the spec: the non-blocking write onto the output channel
(the `events` perf array of the C fragment, whose producer code is absent).
If the fixed-capacity buffer is full the sample is dropped and the drop
counter increments; the caller is never blocked. -/
def emit (chanCap : Nat) (s : SamplerState) (sample : LatencySample) : SamplerState :=
  if s.channel.length < chanCap then { s with channel := s.channel ++ [sample] }
  else { s with dropCount := s.dropCount + 1 }

/-- Modelled from the spec: Operation B
`onScheduled(taskId, processId, command, timestamp)` of section 4.1 (absent
from the C fragment).  Looks up and removes `PendingStart[taskId]`; if absent
does nothing; otherwise computes `latency = timestamp - pendingTimestamp`,
applies the pid filter and the `min_latency_threshold` filter, and pushes the
sample onto the output channel. -/
def onScheduled (chanCap : Nat) (s : SamplerState) (tid pid : Nat)
    (comm : String) (ts : Nat) : SamplerState :=
  match pendingLookup s.pending tid with
  | none => s
  | some t1 =>
    let s1 := { s with pending := pendingRemove s.pending tid }
    let latency := u64sub ts t1
    if pidFiltered s.config pid then s1
    else if latency < s.config.min_latency_threshold then s1
    else emit chanCap s1 ⟨tid, pid, comm, latency⟩

/-- Modelled from the spec: the two trigger-point events of section 6 that
drive the sampler. -/
inductive Event where
  | runnable (taskId timestamp : Nat)
  | scheduled (taskId processId : Nat) (command : String) (timestamp : Nat)
  deriving DecidableEq

/-- One sampler step: dispatch an event to the matching handler. -/
def step (chanCap : Nat) (s : SamplerState) (e : Event) : SamplerState :=
  match e with
  | .runnable tid ts => onRunnable s tid ts
  | .scheduled tid pid comm ts => onScheduled chanCap s tid pid comm ts

/-- The state at activation: empty `PendingStart` table, empty channel,
zero drop counter, configuration fixed for the whole session. -/
def initState (cfg : Config) : SamplerState :=
  { config := cfg, pending := [], channel := [], dropCount := 0 }

/-- The state reached from activation after a sequence of trigger events. -/
def run (chanCap : Nat) (cfg : Config) (events : List Event) : SamplerState :=
  events.foldl (step chanCap) (initState cfg)

/-- Samples a configuration allows onto the channel: they meet the latency
threshold and, when a target pid is set, carry that pid. -/
def goodSample (cfg : Config) (x : LatencySample) : Prop :=
  cfg.min_latency_threshold ≤ x.latency ∧
    (cfg.target_pid ≠ 0 → x.processId = cfg.target_pid)

/-- A sampler state whose `PendingStart` table is at capacity, used to
exercise the full-table insertion path on a concrete input. -/
def fullState : SamplerState :=
  { config := ⟨0, 0⟩
    pending := List.replicate PENDING_CAPACITY (0, 0)
    channel := []
    dropCount := 0 }

example :
    (run 16 ⟨0, 0⟩ [.runnable 7 100, .scheduled 7 42 "task" 350]).channel
      = [⟨7, 42, "task", 250⟩] := by decide

example :
    (run 16 ⟨300, 0⟩ [.runnable 7 100, .scheduled 7 42 "task" 350]).channel
      = [] := by decide

lemma u64sub_eq_sub {a b : Nat} (hba : b ≤ a) (ha : a < U64) :
    u64sub a b = a - b := by
  have hb : b < U64 := lt_of_le_of_lt hba ha
  unfold u64sub
  rw [Nat.mod_eq_of_lt ha, Nat.mod_eq_of_lt hb]
  have h1 : a + (U64 - b) = (a - b) + U64 := by omega
  rw [h1, Nat.add_mod_right, Nat.mod_eq_of_lt (by omega)]

lemma pendingLookup_pendingRemove (l : List (Nat × Nat)) (tid : Nat) :
    pendingLookup (pendingRemove l tid) tid = none := by
  induction l with
  | nil => rfl
  | cons p rest ih =>
    obtain ⟨k, v⟩ := p
    by_cases hk : k = tid
    · simpa [pendingRemove, List.filter_cons, hk] using ih
    · simp only [pendingRemove, List.filter_cons] at ih ⊢
      simpa [pendingLookup, hk] using ih

lemma pendingRemove_length_le (l : List (Nat × Nat)) (tid : Nat) :
    (pendingRemove l tid).length ≤ l.length :=
  List.length_filter_le _ _

lemma pendingUpdate_length (l : List (Nat × Nat)) (tid ts : Nat) :
    (pendingUpdate l tid ts).length = l.length := by
  induction l with
  | nil => rfl
  | cons p rest ih =>
    obtain ⟨k, v⟩ := p
    by_cases hk : k = tid <;> simp [pendingUpdate, hk, ih]

lemma pendingLookup_replicate_none (n : Nat) :
    pendingLookup (List.replicate n (0, 0)) 1 = none := by
  induction n with
  | zero => rfl
  | succ n ih => simpa [List.replicate_succ, pendingLookup] using ih

lemma onRunnable_channel (s : SamplerState) (tid ts : Nat) :
    (onRunnable s tid ts).channel = s.channel := by
  unfold onRunnable; split_ifs <;> rfl

lemma onRunnable_config (s : SamplerState) (tid ts : Nat) :
    (onRunnable s tid ts).config = s.config := by
  unfold onRunnable; split_ifs <;> rfl

lemma onRunnable_dropCount (s : SamplerState) (tid ts : Nat) :
    (onRunnable s tid ts).dropCount = s.dropCount := by
  unfold onRunnable; split_ifs <;> rfl

lemma emit_config (chanCap : Nat) (s : SamplerState) (x : LatencySample) :
    (emit chanCap s x).config = s.config := by
  unfold emit; split_ifs <;> rfl

lemma emit_pending (chanCap : Nat) (s : SamplerState) (x : LatencySample) :
    (emit chanCap s x).pending = s.pending := by
  unfold emit; split_ifs <;> rfl

lemma onScheduled_config (chanCap : Nat) (s : SamplerState) (tid pid : Nat)
    (comm : String) (ts : Nat) :
    (onScheduled chanCap s tid pid comm ts).config = s.config := by
  unfold onScheduled
  cases hl : pendingLookup s.pending tid with
  | none => rfl
  | some t1 =>
    by_cases hp : pidFiltered s.config pid
    · simp [hp]
    · by_cases ht : u64sub ts t1 < s.config.min_latency_threshold <;>
        simp [hp, ht, emit_config]

lemma onScheduled_of_lookup_none (chanCap : Nat) (s : SamplerState)
    (tid pid : Nat) (comm : String) (ts : Nat)
    (h : pendingLookup s.pending tid = none) :
    onScheduled chanCap s tid pid comm ts = s := by
  simp [onScheduled, h]

lemma onScheduled_pending_lookup (chanCap : Nat) (s : SamplerState)
    (tid pid : Nat) (comm : String) (ts : Nat) :
    pendingLookup (onScheduled chanCap s tid pid comm ts).pending tid = none ∨
    (onScheduled chanCap s tid pid comm ts).pending = s.pending ∧
      pendingLookup s.pending tid = none := by
  unfold onScheduled
  cases hl : pendingLookup s.pending tid with
  | none => exact Or.inr ⟨rfl, rfl⟩
  | some t1 =>
    left
    by_cases hp : pidFiltered s.config pid
    · simp [hp, pendingLookup_pendingRemove]
    · by_cases ht : u64sub ts t1 < s.config.min_latency_threshold <;>
        simp [hp, ht, emit_pending, pendingLookup_pendingRemove]

lemma onScheduled_pending_le (chanCap : Nat) (s : SamplerState)
    (tid pid : Nat) (comm : String) (ts : Nat) :
    (onScheduled chanCap s tid pid comm ts).pending.length ≤ s.pending.length := by
  unfold onScheduled
  cases hl : pendingLookup s.pending tid with
  | none => exact le_refl _
  | some t1 =>
    by_cases hp : pidFiltered s.config pid
    · simp [hp, pendingRemove_length_le]
    · by_cases ht : u64sub ts t1 < s.config.min_latency_threshold <;>
        simp [hp, ht, emit_pending, pendingRemove_length_le]

lemma onScheduled_channel_cases (chanCap : Nat) (s : SamplerState)
    (tid pid : Nat) (comm : String) (ts : Nat) :
    (onScheduled chanCap s tid pid comm ts).channel = s.channel ∨
    ∃ t1, pendingLookup s.pending tid = some t1 ∧
      pidFiltered s.config pid = false ∧
      s.config.min_latency_threshold ≤ u64sub ts t1 ∧
      (onScheduled chanCap s tid pid comm ts).channel
        = s.channel ++ [⟨tid, pid, comm, u64sub ts t1⟩] := by
  unfold onScheduled
  cases hl : pendingLookup s.pending tid with
  | none => exact Or.inl rfl
  | some t1 =>
    by_cases hp : pidFiltered s.config pid
    · simp [hp]
    · by_cases ht : u64sub ts t1 < s.config.min_latency_threshold
      · simp [hp, ht]
      · by_cases hc : s.channel.length < chanCap
        · refine Or.inr ⟨t1, rfl, by simpa using hp, by omega, ?_⟩
          simp [hp, ht, emit, hc]
        · simp [hp, ht, emit, hc]

lemma step_config (chanCap : Nat) (s : SamplerState) (e : Event) :
    (step chanCap s e).config = s.config := by
  cases e with
  | runnable tid ts => exact onRunnable_config s tid ts
  | scheduled tid pid comm ts => exact onScheduled_config chanCap s tid pid comm ts

lemma step_channel_good (chanCap : Nat) (s : SamplerState) (e : Event)
    (h : ∀ x ∈ s.channel, goodSample s.config x) :
    ∀ x ∈ (step chanCap s e).channel, goodSample s.config x := by
  cases e with
  | runnable tid ts =>
    intro x hx
    simp only [step, onRunnable_channel] at hx
    exact h x hx
  | scheduled tid pid comm ts =>
    intro x hx
    simp only [step] at hx
    rcases onScheduled_channel_cases chanCap s tid pid comm ts with hch | ⟨t1, hl, hp, ht, hch⟩
    · exact h x (hch ▸ hx)
    · rw [hch] at hx
      rcases List.mem_append.mp hx with hx | hx
      · exact h x hx
      · have hx' : x = ⟨tid, pid, comm, u64sub ts t1⟩ := by simpa using hx
        subst hx'
        refine ⟨ht, fun h0 => ?_⟩
        simp only [pidFiltered, Bool.and_eq_false_iff, bne_eq_false_iff_eq] at hp
        rcases hp with hp | hp
        · exact absurd hp h0
        · exact hp

lemma foldl_config (chanCap : Nat) (evs : List Event) :
    ∀ s : SamplerState, (evs.foldl (step chanCap) s).config = s.config := by
  induction evs with
  | nil => intro s; rfl
  | cons e evs ih =>
    intro s
    rw [List.foldl_cons, ih (step chanCap s e), step_config]

lemma foldl_channel_good (chanCap : Nat) (evs : List Event) :
    ∀ s : SamplerState, (∀ x ∈ s.channel, goodSample s.config x) →
      ∀ x ∈ (evs.foldl (step chanCap) s).channel,
        goodSample (evs.foldl (step chanCap) s).config x := by
  induction evs with
  | nil => intro s h; simpa using h
  | cons e evs ih =>
    intro s h
    rw [List.foldl_cons]
    refine ih (step chanCap s e) ?_
    simp only [step_config]
    exact step_channel_good chanCap s e h

lemma run_channel_good (chanCap : Nat) (cfg : Config) (evs : List Event) :
    ∀ x ∈ (run chanCap cfg evs).channel, goodSample cfg x := by
  intro x hx
  have h := foldl_channel_good chanCap evs (initState cfg)
    (by intro x hx; simp [initState] at hx) x hx
  rwa [foldl_config chanCap evs (initState cfg)] at h

lemma step_pending_le (chanCap : Nat) (s : SamplerState) (e : Event)
    (h : s.pending.length ≤ PENDING_CAPACITY) :
    (step chanCap s e).pending.length ≤ PENDING_CAPACITY := by
  cases e with
  | runnable tid ts =>
    show (onRunnable s tid ts).pending.length ≤ PENDING_CAPACITY
    unfold onRunnable
    split_ifs with h1 h2
    · simpa [pendingUpdate_length] using h
    · simp only [List.length_cons]
      omega
    · exact h
  | scheduled tid pid comm ts =>
    exact le_trans (onScheduled_pending_le chanCap s tid pid comm ts) h

lemma foldl_pending_le (chanCap : Nat) (evs : List Event) :
    ∀ s : SamplerState, s.pending.length ≤ PENDING_CAPACITY →
      (evs.foldl (step chanCap) s).pending.length ≤ PENDING_CAPACITY := by
  induction evs with
  | nil => intro s h; exact h
  | cons e evs ih =>
    intro s h
    rw [List.foldl_cons]
    exact ih _ (step_pending_le chanCap s e h)

/-- C1: a task whose `PendingStart` entry survives until it is scheduled
receives a latency sample of exactly `t2 - t1`, the scheduling timestamp
minus the runnable timestamp, provided the sample passes both filters and
the channel has room. -/
theorem onScheduled_latency_exact (chanCap : Nat) (s : SamplerState)
    (tid pid : Nat) (comm : String) (t1 t2 : Nat)
    (hlook : pendingLookup s.pending tid = some t1)
    (h12 : t1 ≤ t2) (h2 : t2 < U64)
    (hpid : pidFiltered s.config pid = false)
    (hthr : s.config.min_latency_threshold ≤ t2 - t1)
    (hroom : s.channel.length < chanCap) :
    (onScheduled chanCap s tid pid comm t2).channel
      = s.channel ++ [⟨tid, pid, comm, t2 - t1⟩] := by
  have hsub : u64sub t2 t1 = t2 - t1 := u64sub_eq_sub h12 h2
  have hnlt : ¬ t2 - t1 < s.config.min_latency_threshold := by omega
  simp [onScheduled, hlook, hpid, hnlt, emit, hroom, hsub]

/-- Witness for C1: the spec scenario — runnable at t=100, scheduled at
t=350, threshold 0, target pid 0 — yields a sample of latency 250. -/
theorem onScheduled_latency_exact_witness :
    (onScheduled 16 (onRunnable (initState ⟨0, 0⟩) 7 100) 7 42 "task" 350).channel
      = (onRunnable (initState ⟨0, 0⟩) 7 100).channel ++ [⟨7, 42, "task", 250⟩] :=
  onScheduled_latency_exact 16 (onRunnable (initState ⟨0, 0⟩) 7 100) 7 42 "task"
    100 350 (by decide) (by decide) (by decide) (by decide) (by decide) (by decide)

/-- C2: with `min_latency_threshold = M`, no sample on the output channel of
any reachable state has latency below `M`. -/
theorem run_channel_min_threshold (chanCap : Nat) (cfg : Config)
    (evs : List Event) (x : LatencySample)
    (hx : x ∈ (run chanCap cfg evs).channel) :
    cfg.min_latency_threshold ≤ x.latency :=
  (run_channel_good chanCap cfg evs x hx).1

/-- Witness for C2 at threshold 200 and an emitted sample of latency 250. -/
theorem run_channel_min_threshold_witness :
    (⟨200, 0⟩ : Config).min_latency_threshold
      ≤ (⟨7, 42, "task", 250⟩ : LatencySample).latency :=
  run_channel_min_threshold 16 ⟨200, 0⟩
    [.runnable 7 100, .scheduled 7 42 "task" 350] ⟨7, 42, "task", 250⟩ (by decide)

/-- C3: with a nonzero `target_pid = P`, every emitted sample carries
processId `P`; with `target_pid = 0` the pid filter discards nothing. -/
theorem run_channel_target_pid :
    (∀ (chanCap : Nat) (cfg : Config) (evs : List Event) (x : LatencySample),
        x ∈ (run chanCap cfg evs).channel → cfg.target_pid ≠ 0 →
        x.processId = cfg.target_pid) ∧
    (∀ (m pid : Nat), pidFiltered ⟨m, 0⟩ pid = false) := by
  refine ⟨?_, fun m pid => rfl⟩
  intro chanCap cfg evs x hx h0
  exact (run_channel_good chanCap cfg evs x hx).2 h0

/-- Witness for C3: with target pid 42, the emitted sample carries pid 42. -/
theorem run_channel_target_pid_witness :
    (⟨7, 42, "task", 250⟩ : LatencySample).processId
      = (⟨0, 42⟩ : Config).target_pid :=
  run_channel_target_pid.1 16 ⟨0, 42⟩
    [.runnable 7 100, .scheduled 7 42 "task" 350] ⟨7, 42, "task", 250⟩
    (by decide) (by decide)

/-- C4: every reachable `PendingStart` table holds at most 10240 entries, and
an insertion of a fresh task id into a full table is silently dropped. -/
theorem pending_capacity_bound :
    (∀ (chanCap : Nat) (cfg : Config) (evs : List Event),
        (run chanCap cfg evs).pending.length ≤ PENDING_CAPACITY) ∧
    (∀ (s : SamplerState) (tid ts : Nat),
        pendingLookup s.pending tid = none →
        PENDING_CAPACITY ≤ s.pending.length →
        onRunnable s tid ts = s) := by
  constructor
  · intro chanCap cfg evs
    exact foldl_pending_le chanCap evs (initState cfg) (by simp [initState])
  · intro s tid ts hnone hfull
    have hlt : ¬ s.pending.length < PENDING_CAPACITY := by omega
    simp [onRunnable, hnone, hlt]

/-- Witness for C4: inserting task 1 into a table of 10240 entries is a
no-op. -/
theorem pending_capacity_bound_witness :
    onRunnable fullState 1 5 = fullState :=
  pending_capacity_bound.2 fullState 1 5
    (pendingLookup_replicate_none PENDING_CAPACITY)
    (by simp [fullState])

/-- C5: no sample on the output channel of any reachable state carries a
negative latency (the latency is an unsigned 64-bit quantity). -/
theorem run_channel_latency_nonneg (chanCap : Nat) (cfg : Config)
    (evs : List Event) (x : LatencySample)
    (_hx : x ∈ (run chanCap cfg evs).channel) :
    (0 : Int) ≤ (x.latency : Int) :=
  Int.natCast_nonneg x.latency

/-- Witness for C5 at a concretely emitted sample. -/
theorem run_channel_latency_nonneg_witness :
    (0 : Int) ≤ ((⟨7, 42, "task", 250⟩ : LatencySample).latency : Int) :=
  run_channel_latency_nonneg 16 ⟨0, 0⟩
    [.runnable 7 100, .scheduled 7 42 "task" 350] ⟨7, 42, "task", 250⟩ (by decide)

/-- C6: scheduling a task with no `PendingStart` entry is a complete no-op:
the state is returned unchanged, so no sample is emitted and no error is
raised. -/
theorem onScheduled_miss_noop (chanCap : Nat) (s : SamplerState)
    (tid pid : Nat) (comm : String) (ts : Nat)
    (h : pendingLookup s.pending tid = none) :
    onScheduled chanCap s tid pid comm ts = s :=
  onScheduled_of_lookup_none chanCap s tid pid comm ts h

/-- Witness for C6: scheduling task 3 from the activation state, whose
table is empty, changes nothing. -/
theorem onScheduled_miss_noop_witness :
    onScheduled 16 (initState ⟨0, 0⟩) 3 4 "idle" 50 = initState ⟨0, 0⟩ :=
  onScheduled_miss_noop 16 (initState ⟨0, 0⟩) 3 4 "idle" 50 rfl

/-- C7: when the output channel is full, an emission attempt drops the
sample, increments the drop counter by exactly one, and returns normally
(the channel itself is unchanged). -/
theorem onScheduled_channel_full_drop (chanCap : Nat) (s : SamplerState)
    (tid pid : Nat) (comm : String) (ts t1 : Nat)
    (hlook : pendingLookup s.pending tid = some t1)
    (hpid : pidFiltered s.config pid = false)
    (hthr : s.config.min_latency_threshold ≤ u64sub ts t1)
    (hfull : ¬ s.channel.length < chanCap) :
    onScheduled chanCap s tid pid comm ts
      = { s with pending := pendingRemove s.pending tid,
                 dropCount := s.dropCount + 1 } := by
  have hnlt : ¬ u64sub ts t1 < s.config.min_latency_threshold := by omega
  simp [onScheduled, hlook, hpid, hnlt, emit, hfull]

/-- Witness for C7: with channel capacity 0 the pending entry is consumed,
the channel stays empty and the drop counter becomes 1. -/
theorem onScheduled_channel_full_drop_witness :
    onScheduled 0 ⟨⟨0, 0⟩, [(7, 100)], [], 0⟩ 7 42 "task" 350
      = ⟨⟨0, 0⟩, [], [], 1⟩ :=
  onScheduled_channel_full_drop 0 ⟨⟨0, 0⟩, [(7, 100)], [], 0⟩ 7 42 "task" 350 100
    (by decide) (by decide) (by decide) (by decide)

/-- C8: neither handler ever modifies the two tunables: the configuration
after any `onRunnable` or `onScheduled` call equals the configuration
before it. -/
theorem tunables_immutable (chanCap : Nat) (s : SamplerState)
    (tid pid : Nat) (comm : String) (ts tsr : Nat) :
    (onRunnable s tid tsr).config = s.config ∧
    (onScheduled chanCap s tid pid comm ts).config = s.config :=
  ⟨onRunnable_config s tid tsr, onScheduled_config chanCap s tid pid comm ts⟩

/-- C9: a `PendingStart` entry is consumed by the first `onScheduled` that
reads it: afterwards no entry for that task remains, and any immediately
repeated `onScheduled` for the same task changes nothing, so one entry
contributes to at most one sample. -/
theorem pending_entry_consumed_once (chanCap : Nat) (s : SamplerState)
    (tid pid : Nat) (comm : String) (ts : Nat) :
    pendingLookup (onScheduled chanCap s tid pid comm ts).pending tid = none ∧
    ∀ (pid' : Nat) (comm' : String) (ts' : Nat),
      onScheduled chanCap (onScheduled chanCap s tid pid comm ts) tid pid' comm' ts'
        = onScheduled chanCap s tid pid comm ts := by
  have hnone : pendingLookup (onScheduled chanCap s tid pid comm ts).pending tid
      = none := by
    rcases onScheduled_pending_lookup chanCap s tid pid comm ts with h | ⟨hp, hn⟩
    · exact h
    · rw [hp]; exact hn
  exact ⟨hnone, fun pid' comm' ts' =>
    onScheduled_of_lookup_none chanCap _ tid pid' comm' ts' hnone⟩

/-- C10: the tunables start at `min_us = 0` and `targ_pid = 0`, and under
that default configuration every successful lookup leads to an emission
attempt — the channel grows by one sample or the drop counter increments. -/
theorem default_config_no_filtering :
    min_us = 0 ∧ targ_pid = 0 ∧
    ∀ (chanCap : Nat) (s : SamplerState) (tid pid : Nat) (comm : String)
      (ts t1 : Nat),
      s.config = ⟨min_us, targ_pid⟩ →
      pendingLookup s.pending tid = some t1 →
      (∃ sample, (onScheduled chanCap s tid pid comm ts).channel
          = s.channel ++ [sample]) ∨
      (onScheduled chanCap s tid pid comm ts).dropCount = s.dropCount + 1 := by
  refine ⟨rfl, rfl, ?_⟩
  intro chanCap s tid pid comm ts t1 hcfg hlook
  have hpid : pidFiltered s.config pid = false := by rw [hcfg]; rfl
  have hnlt : ¬ u64sub ts t1 < s.config.min_latency_threshold := by
    rw [hcfg]
    simp [min_us]
  by_cases hc : s.channel.length < chanCap
  · exact Or.inl ⟨⟨tid, pid, comm, u64sub ts t1⟩,
      by simp [onScheduled, hlook, hpid, hnlt, emit, hc]⟩
  · exact Or.inr (by simp [onScheduled, hlook, hpid, hnlt, emit, hc])

/-- Witness for C10: under the default configuration a pending task of any
latency produces an emission attempt. -/
theorem default_config_no_filtering_witness :
    (∃ sample, (onScheduled 16 ⟨⟨0, 0⟩, [(7, 100)], [], 0⟩ 7 42 "task" 350).channel
        = (⟨⟨0, 0⟩, [(7, 100)], [], 0⟩ : SamplerState).channel ++ [sample]) ∨
    (onScheduled 16 ⟨⟨0, 0⟩, [(7, 100)], [], 0⟩ 7 42 "task" 350).dropCount
      = (⟨⟨0, 0⟩, [(7, 100)], [], 0⟩ : SamplerState).dropCount + 1 :=
  default_config_no_filtering.2.2 16 ⟨⟨0, 0⟩, [(7, 100)], [], 0⟩ 7 42 "task" 350
    100 rfl rfl

end Ethrex
